import Mathlib

/-!
Shallow embedding of the TA-GoogleFitness modular input
(src/TA-GoogleFitness/bin/src/FitnessInput.go).

The embedding models the configuration data (stanzas and parameters), the
secure-store entries, the checkpoint file (a byte list holding the Go
time.Time gob encoding), and the control flow of StreamEvents as an
executable interpreter that records externally visible effects
(credential-store queries, checkpoint reads and writes, client builds,
data fetches) in a trace and reports fatal termination as an error value.
Machine integers are modelled as Int/Nat with explicit reductions modulo
powers of two where the Go code truncates.
-/

/-! ## Constants from FitnessInput.go -/

def APP_NAME : String := "TA-GoogleFitness"

def STRATEGY_GOOGLE : String := "GoogleFitness"

def STRATEGY_FITBIT : String := "FitBit"

def STRATEGY_MICROSOFT : String := "Microsoft"

def STRATEGY_PARAM_NAME : String := "FitnessService"

/-! ## Time model

Go `time.Time` wall-clock values: seconds (int64, internal epoch) plus
nanoseconds.  The location is taken to be UTC throughout, which is what
`time.Now`-derived values round-trip through the checkpoint file as.
-/

/-- A Go `time.Time` wall-clock value: seconds (int64 semantics) and
nanoseconds. -/
structure GoTime where
  sec : Int
  nsec : Int
deriving DecidableEq

/-- The timestamps Go `time.Time` can actually hold: `sec` fits in an
int64 and `nsec` is a nanosecond count below one second. -/
def GoTime.valid (t : GoTime) : Prop :=
  -9223372036854775808 ≤ t.sec ∧ t.sec < 9223372036854775808 ∧
    0 ≤ t.nsec ∧ t.nsec < 1000000000

instance (t : GoTime) : Decidable t.valid := by
  unfold GoTime.valid; infer_instance

/-- Go `t.Before(u) || t.Equal(u)`: ordering of wall-clock values,
seconds first, then nanoseconds. -/
def GoTime.le (a b : GoTime) : Prop :=
  a.sec < b.sec ∨ (a.sec = b.sec ∧ a.nsec ≤ b.nsec)

instance (a b : GoTime) : Decidable (GoTime.le a b) := by
  unfold GoTime.le; infer_instance

theorem GoTime.le_refl (a : GoTime) : GoTime.le a a := Or.inr ⟨rfl, le_rfl⟩

/-! ## Go time gob encoding

`time.Time.GobEncode` delegates to `MarshalBinary` (version-1 format):
one version byte `1`, eight big-endian bytes of the int64 seconds, four
big-endian bytes of the int32 nanoseconds, and two bytes of the int16
zone-offset minutes (`-1`, i.e. `0xffff`, for UTC).  `GobDecode`
(`UnmarshalBinary`) rejects an empty buffer, a version byte other than 1,
and any length other than 15 bytes.
-/

/-- Byte `d`-digit (where `d` is a power of 256) of the int64 `sec` field,
after two's-complement truncation to 64 bits. -/
def secByte (t : GoTime) (d : Nat) : Nat :=
  (t.sec % 18446744073709551616).toNat / d % 256

/-- Byte `d`-digit of the int32 `nsec` field, after truncation to 32 bits. -/
def nsecByte (t : GoTime) (d : Nat) : Nat :=
  (t.nsec % 4294967296).toNat / d % 256

/-- The 15 bytes `time.Time.GobEncode` produces for a UTC wall-clock
value: version 1, seconds, nanoseconds, zone offset `-1`. -/
def gobEncodeTime (t : GoTime) : List Nat :=
  [1,
   secByte t 72057594037927936, secByte t 281474976710656,
   secByte t 1099511627776, secByte t 4294967296,
   secByte t 16777216, secByte t 65536, secByte t 256, secByte t 1,
   nsecByte t 16777216, nsecByte t 65536, nsecByte t 256, nsecByte t 1,
   255, 255]

/-- Reinterpret a Nat below 2^64 as a two's-complement int64. -/
def toSigned64 (n : Nat) : Int :=
  if n < 9223372036854775808 then (n : Int) else (n : Int) - 18446744073709551616

/-- Reinterpret a Nat below 2^32 as a two's-complement int32. -/
def toSigned32 (n : Nat) : Int :=
  if n < 2147483648 then (n : Int) else (n : Int) - 4294967296

/-- `time.Time.GobDecode`: succeeds exactly on 15-byte buffers whose
version byte is 1, rebuilding seconds and nanoseconds big-endian.  The
two trailing zone bytes only select the location and do not affect the
wall-clock value. -/
def gobDecodeTime : List Nat → Option GoTime
  | [v, s7, s6, s5, s4, s3, s2, s1, s0, n3, n2, n1, n0, _, _] =>
    if v = 1 then
      some { sec := toSigned64 (((((((s7 * 256 + s6) * 256 + s5) * 256 + s4) * 256
                      + s3) * 256 + s2) * 256 + s1) * 256 + s0),
             nsec := toSigned32 (((n3 * 256 + n2) * 256 + n1) * 256 + n0) }
    else none
  | _ => none

theorem gobDecode_gobEncode (t : GoTime) (h : t.valid) :
    gobDecodeTime (gobEncodeTime t) = some t := by
  rcases t with ⟨s, ns⟩
  obtain ⟨h1, h2, h3, h4⟩ := h
  simp only [GoTime.valid] at h1 h2 h3 h4
  show gobDecodeTime (gobEncodeTime ⟨s, ns⟩) = some ⟨s, ns⟩
  simp only [gobEncodeTime, gobDecodeTime, secByte, nsecByte]
  rw [if_pos trivial]
  simp only [Option.some.injEq, GoTime.mk.injEq]
  constructor
  · unfold toSigned64
    split <;> omega
  · unfold toSigned32
    split <;> omega

/-! ## Checkpoint store and effect-traced operations

Effects a run can perform against the outside world, recorded in order.
-/

/-- The JSON payload stored in a `clear_password` field, as decoded by
`getTokens` (fields `access_token`, `refresh_token`, `token_type`,
`expires_at`). -/
structure TokenData where
  accessToken : String
  refreshToken : String
  tokenType : String
  expires : String
deriving DecidableEq

/-- An oauth2 token as produced by `newToken(refresh, access, expires, type)`.
Modelled from the spec: the token constructor lives outside
FitnessInput.go (TokenManagement is not under src/); per the spec a
Credential carries access token, refresh token, token type and expiry. -/
structure Token where
  refreshToken : String
  accessToken : String
  expiry : String
  tokenType : String
deriving DecidableEq

def newToken (refresh access expires ttype : String) : Token :=
  { refreshToken := refresh, accessToken := access,
    expiry := expires, tokenType := ttype }

/-- One externally visible effect of a run. -/
inductive Event where
  | getEntities
  | readCheckpointFile
  | writeCheckpointFile (bytes : List Nat)
  | buildClient (tok : Token)
  | getData (tok : Token)
  | logWarn (msg : String)
deriving DecidableEq

def isGetData : Event → Bool
  | .getData _ => true
  | _ => false

def isBuildClient : Event → Bool
  | .buildClient _ => true
  | _ => false

def isWriteCp : Event → Bool
  | .writeCheckpointFile _ => true
  | _ => false

/-- `readCheckPoint`, given the resolved checkpoint path (none = the
`getCheckPointPath` index panic), the checkpoint file contents (none =
`ioutil.ReadFile` error, e.g. missing file), and the current time.
Returns the timestamp plus an error flag (`true` = non-nil error):
missing file gives `(now, error)`, undecodable contents give
`(now minus two hours, error)`, otherwise the stored time with no error. -/
def readCheckPointRun (cpPath : Option String) (file : Option (List Nat))
    (now : GoTime) : List Event × Except String (GoTime × Bool) :=
  match cpPath with
  | none => ([], .error "panic: runtime error: index out of range")
  | some _ =>
    match file with
    | none => ([.readCheckpointFile, .logWarn "Unable to read checkpoint file"],
               .ok (now, true))
    | some b =>
      match gobDecodeTime b with
      | none => ([.readCheckpointFile, .logWarn "Unable to decode checkpoint file"],
                 .ok ({ sec := now.sec - 7200, nsec := now.nsec }, true))
      | some t => ([.readCheckpointFile], .ok (t, false))

/-- `getTimes`: start time from `readCheckPoint`, replaced by the current
time whenever `readCheckPoint` reported an error; end time is the current
time. -/
def getTimesRun (cpPath : Option String) (file : Option (List Nat))
    (now : GoTime) : List Event × Except String (GoTime × GoTime) :=
  match readCheckPointRun cpPath file now with
  | (evs, .error m) => (evs, .error m)
  | (evs, .ok (st, errFlag)) => (evs, .ok (if errFlag then now else st, now))

/-- `writeCheckPoint`: gob-encode the timestamp and write the checkpoint
file; a file-system write failure is fatal.  On success the bytes now in
the file are returned.  (For the UTC wall-clock values modelled here the
`GobEncode` step itself cannot fail; Go only rejects exotic zone
offsets.) -/
def writeCheckPointRun (writeFails : Bool) (t : GoTime) :
    List Event × Except String (List Nat) :=
  if writeFails then
    ([.writeCheckpointFile (gobEncodeTime t)], .error "Error writing checkpoint file")
  else
    ([.writeCheckpointFile (gobEncodeTime t)], .ok (gobEncodeTime t))

/-! ## Configuration model (splunk.ModInputConfig) -/

/-- One key/value parameter of a stanza. -/
structure Param where
  name : String
  value : String
deriving DecidableEq

/-- One configuration stanza: its name and its parameters. -/
structure Stanza where
  stanzaName : String
  params : List Param
deriving DecidableEq

/-- The modular-input configuration handed over by the host: stanzas, a
checkpoint directory and a session key. -/
structure ModInputConfig where
  stanzas : List Stanza
  checkpointDir : String
  sessionKey : String
deriving DecidableEq

/-- The per-parameter test of `ValidateScheme`: the parameter is the
provider-selection parameter and its value is none of the three known
provider names. -/
def checkParam (p : Param) : Bool :=
  decide (p.name = STRATEGY_PARAM_NAME) &&
    !(decide (p.value = STRATEGY_GOOGLE) || decide (p.value = STRATEGY_FITBIT)
      || decide (p.value = STRATEGY_MICROSOFT))

/-- Inner loop of `ValidateScheme` over one stanza's parameters: fails at
the first offending provider-selection parameter. -/
def validateStanzaParams : List Param → Bool × String
  | [] => (true, "")
  | p :: rest =>
    if checkParam p then
      (false, "Improper service " ++ p.value ++ " name indicated.")
    else validateStanzaParams rest

/-- Outer loop of `ValidateScheme` over all stanzas. -/
def validateStanzas : List Stanza → Bool × String
  | [] => (true, "")
  | st :: rest =>
    match validateStanzaParams st.params with
    | (false, m) => (false, m)
    | (true, _) => validateStanzas rest

/-- `ValidateScheme`: parse the configuration from the reader (none =
parse error) and check every provider-selection parameter against the
known provider set.  Performs no I/O besides reading the configuration. -/
def ValidateScheme (configResult : Option ModInputConfig) : Bool × String :=
  match configResult with
  | none => (false, "Unable to parse configuration.")
  | some c => validateStanzas c.stanzas

/-- `getStrategy` (value part): iterate all stanzas and parameters; the
last occurrence of the provider-selection parameter wins; empty string if
absent (in which case the effectful `getStrategy` is fatal). -/
def getStrategyVal (stanzas : List Stanza) : String :=
  stanzas.foldl
    (fun acc st =>
      st.params.foldl
        (fun a p => if p.name = STRATEGY_PARAM_NAME then p.value else a) acc)
    ""

theorem validateStanzaParams_false (ps : List Param) (p : Param)
    (hmem : p ∈ ps) (hbad : checkParam p = true) :
    (validateStanzaParams ps).1 = false := by
  induction ps with
  | nil => cases hmem
  | cons q rest ih =>
    rcases List.mem_cons.mp hmem with h | h
    · subst h
      simp only [validateStanzaParams, hbad, if_true]
    · unfold validateStanzaParams
      split
      · rfl
      · exact ih h

theorem validateStanzas_false (ss : List Stanza) (st : Stanza) (p : Param)
    (hst : st ∈ ss) (hp : p ∈ st.params) (hbad : checkParam p = true) :
    (validateStanzas ss).1 = false := by
  induction ss with
  | nil => cases hst
  | cons q rest ih =>
    rcases List.mem_cons.mp hst with h | h
    · rw [h] at hp
      unfold validateStanzas
      have hfalse := validateStanzaParams_false q.params p hp hbad
      rcases hvs : validateStanzaParams q.params with ⟨b, m⟩
      rw [hvs] at hfalse
      simp only at hfalse
      subst hfalse
      rfl
    · unfold validateStanzas
      rcases hvs : validateStanzaParams q.params with ⟨b, m⟩
      cases b
      · rfl
      · exact ih h

/-! ## Checkpoint path derivation (getCheckPointPath)

`strings.Split(name, "://")` is modelled character-exactly; a stanza name
without the separator yields a one-element split, so the Go access
`fileName[1]` panics (the `none` branch here), as does `Stanzas[0]` on an
empty stanza list.
-/

/-- Head-preserving cons used by the split: prepend a character to the
first field of an already computed split. -/
def consHead (c : Char) : List (List Char) → List (List Char)
  | [] => [[c]]
  | h :: t => (c :: h) :: t

/-- Go `strings.Split(s, sep)` specialised to the three-character scheme
separator of stanza names: scan left to right, cutting at each
non-overlapping occurrence of the separator. -/
def splitSep : List Char → List (List Char)
  | [] => [[]]
  | c1 :: c2 :: c3 :: rest =>
    if c1 = ':' ∧ c2 = '/' ∧ c3 = '/' then [] :: splitSep rest
    else consHead c1 (splitSep (c2 :: c3 :: rest))
  | c :: rest => consHead c (splitSep rest)

/-- Locate the first occurrence of the separator: returns the characters
before it and the characters after it, or none when it does not occur.
This is the specification-side reading of "the first scheme separator in
the stanza name". -/
def findSep : List Char → Option (List Char × List Char)
  | c1 :: c2 :: c3 :: rest =>
    if c1 = ':' ∧ c2 = '/' ∧ c3 = '/' then some ([], rest)
    else (findSep (c2 :: c3 :: rest)).map (fun pr => (c1 :: pr.1, pr.2))
  | _ => none

/-- The characters of `s` before its first separator occurrence (all of
`s` when the separator does not occur): the specification-side reading of
"the segment up to the next separator". -/
def firstSeg (s : List Char) : List Char :=
  match findSep s with
  | none => s
  | some pr => pr.1

theorem splitSep_eq_findSep (s : List Char) :
    splitSep s = (match findSep s with
      | none => [s]
      | some pr => pr.1 :: splitSep pr.2) := by
  have main : ∀ n (s : List Char), s.length ≤ n →
      splitSep s = (match findSep s with
        | none => [s]
        | some pr => pr.1 :: splitSep pr.2) := by
    intro n
    induction n with
    | zero =>
      intro s hs
      have : s = [] := List.length_eq_zero.mp (Nat.le_zero.mp hs)
      subst this
      rfl
    | succ n ih =>
      intro s hs
      match s with
      | [] => rfl
      | [c] => rfl
      | [c, d] => rfl
      | c1 :: c2 :: c3 :: rest =>
        by_cases h : c1 = ':' ∧ c2 = '/' ∧ c3 = '/'
        · simp only [splitSep, findSep, if_pos h]
        · simp only [splitSep, findSep, if_neg h]
          have hrest : (c2 :: c3 :: rest).length ≤ n := by
            simp only [List.length_cons] at hs ⊢; omega
          rw [ih (c2 :: c3 :: rest) hrest]
          cases hf : findSep (c2 :: c3 :: rest) with
          | none => simp only [hf, Option.map_none', consHead]
          | some pr => simp only [hf, Option.map_some', consHead]
  exact main s.length s le_rfl

theorem splitSep_ne_nil (s : List Char) : splitSep s ≠ [] := by
  rw [splitSep_eq_findSep]
  cases findSep s <;> simp

/-- `path.Join(dir, name)` for the simple shapes used here (no interior
cleaning is modelled: the checkpoint dir is taken to be a clean path). -/
def pathJoin (dir name : String) : String :=
  if dir = "" then name else dir ++ "/" ++ name

/-- `getCheckPointPath`: split the first stanza's name on the scheme
separator and join field 1 with the checkpoint directory.  The `none`
branches are the two Go index panics: an empty stanza list
(`Stanzas[0]`) and fewer than two split fields (`fileName[1]`). -/
def getCheckPointPath : List Stanza → String → Option String
  | [], _ => none
  | st :: _, checkpointDir =>
    match splitSep st.stanzaName.toList with
    | _ :: seg :: _ => some (pathJoin checkpointDir (String.mk seg))
    | _ => none

theorem getCheckPointPath_none_of_no_sep (st : Stanza) (rest : List Stanza)
    (dir : String) (h : findSep st.stanzaName.toList = none) :
    getCheckPointPath (st :: rest) dir = none := by
  simp only [getCheckPointPath]
  rw [splitSep_eq_findSep, h]

theorem getCheckPointPath_of_sep (st : Stanza) (rest : List Stanza)
    (dir : String) (pre post : List Char)
    (h : findSep st.stanzaName.toList = some (pre, post)) :
    getCheckPointPath (st :: rest) dir =
      some (pathJoin dir (String.mk (firstSeg post))) := by
  simp only [getCheckPointPath]
  rw [splitSep_eq_findSep, h]
  simp only
  rw [splitSep_eq_findSep]
  unfold firstSeg
  cases hf : findSep post with
  | none => simp only [hf]
  | some pr => simp only [hf]

/-! ## Secure credential store model (splunk.GetEntities results) -/

/-- One name/value attribute of a stored password entry. -/
structure EntryKey where
  name : String
  value : String
deriving DecidableEq

/-- One entry of the storage/passwords endpoint: its ID and attributes. -/
structure Entry where
  id : String
  keys : List EntryKey
deriving DecidableEq

/-- The outside world a run interacts with: the result of querying the
secure store (none = transport failure), the checkpoint file contents at
run start (none = missing file), the current time, the behaviour of the
external JSON decoder on stored payloads, and whether checkpoint file
writes fail. -/
structure Env where
  entities : Option (List Entry)
  checkpointFile : Option (List Nat)
  now : GoTime
  decodeJSON : String → Option TokenData
  writeFails : Bool

/-! ## getTokens -/

/-- The per-entry key scan of `getTokens`: the last `clear_password`
value wins as the candidate token JSON; any `realm` key triggers the
`getStrategy` call (fatal when the strategy parameter is absent), and a
`realm` key whose value equals the strategy marks the entry as belonging
to the configured provider. -/
def entryScan (strategy : String) : List EntryKey → String × Bool →
    Except String (String × Bool)
  | [], acc => .ok acc
  | k :: rest, acc =>
    if k.name = "clear_password" then entryScan strategy rest (k.value, acc.2)
    else if k.name = "realm" then
      if strategy = "" then .error "No strategy passed to Fitness Input"
      else entryScan strategy rest (acc.1, acc.2 || decide (k.value = strategy))
    else entryScan strategy rest acc

/-- Does the entry carry a `realm` attribute equal to the strategy? -/
def hasMatchingRealm (strategy : String) (e : Entry) : Bool :=
  e.keys.any (fun k => decide (k.name = "realm") && decide (k.value = strategy))

/-- The last value among keys named `nm`, starting from default `d`
(matches the overwrite-on-iteration semantics of the Go loops). -/
def lastValFrom (nm : String) (d : String) (ks : List EntryKey) : String :=
  ks.foldl (fun a k => if k.name = nm then k.value else a) d

theorem entryScan_ok (strategy : String) (hs : strategy ≠ "") :
    ∀ (ks : List EntryKey) (tj : String) (isFor : Bool),
    entryScan strategy ks (tj, isFor) =
      .ok (lastValFrom "clear_password" tj ks,
           isFor || ks.any (fun k => decide (k.name = "realm")
                              && decide (k.value = strategy))) := by
  intro ks
  induction ks with
  | nil => intro tj isFor; simp [entryScan, lastValFrom]
  | cons k rest ih =>
    intro tj isFor
    by_cases h1 : k.name = "clear_password"
    · rw [entryScan, if_pos h1]
      rw [ih k.value isFor]
      simp only [lastValFrom, List.foldl_cons, List.any_cons, if_pos h1, h1]
      simp
    · by_cases h2 : k.name = "realm"
      · rw [entryScan, if_neg h1, if_pos h2, if_neg hs]
        rw [ih tj (isFor || decide (k.value = strategy))]
        simp only [lastValFrom, List.foldl_cons, List.any_cons]
        rw [if_neg h1]
        have hd : decide (k.name = "realm") = true := by simp [h2]
        rw [hd]
        simp [Bool.or_assoc]
      · rw [entryScan, if_neg h1, if_neg h2]
        rw [ih tj isFor]
        simp only [lastValFrom, List.foldl_cons, List.any_cons, if_neg h1]
        simp [h1, h2]

/-- The loop of `getTokens` over all entries: scan keys, and for an entry
tagged with the configured realm decode its stored JSON payload (fatal on
decode failure) into a token. -/
def getTokensLoop (dec : String → Option TokenData) (strategy : String) :
    List Entry → Except String (List Token)
  | [] => .ok []
  | e :: rest =>
    match entryScan strategy e.keys ("", false) with
    | .error m => .error m
    | .ok (tj, isFor) =>
      if isFor then
        match dec tj with
        | none => .error "Failed to decode passwords from storage/passwords"
        | some td =>
          match getTokensLoop dec strategy rest with
          | .error m => .error m
          | .ok toks =>
            .ok (newToken td.refreshToken td.accessToken td.expires td.tokenType
                  :: toks)
      else getTokensLoop dec strategy rest

/-- `getTokens`: query the secure store (fatal on query failure) and run
the entry loop. -/
def getTokensRun (env : Env) (strategy : String) :
    List Event × Except String (List Token) :=
  match env.entities with
  | none => ([.getEntities], .error "Unable to get user tokens from Splunk")
  | some es => ([.getEntities], getTokensLoop env.decodeJSON strategy es)

/-- The token an entry contributes when it is tagged for the strategy:
its last `clear_password` payload decoded and repackaged. -/
def tokenOfEntry (dec : String → Option TokenData) (e : Entry) : Option Token :=
  (dec (lastValFrom "clear_password" "" e.keys)).map
    (fun td => newToken td.refreshToken td.accessToken td.expires td.tokenType)

theorem getTokensLoop_filterMap (dec : String → Option TokenData)
    (strategy : String) (hs : strategy ≠ "") :
    ∀ (es : List Entry) (ts : List Token),
    getTokensLoop dec strategy es = .ok ts →
    ts = es.filterMap
      (fun e => if hasMatchingRealm strategy e then tokenOfEntry dec e else none) := by
  intro es
  induction es with
  | nil =>
    intro ts h
    simp only [getTokensLoop] at h
    cases h
    simp
  | cons e rest ih =>
    intro ts h
    rw [getTokensLoop, entryScan_ok strategy hs e.keys "" false] at h
    simp only [Bool.false_or] at h
    rw [List.filterMap_cons]
    by_cases hm : hasMatchingRealm strategy e = true
    · have hm0 : (e.keys.any (fun k => decide (k.name = "realm")
          && decide (k.value = strategy))) = true := hm
      rw [if_pos hm0] at h
      rw [if_pos hm]
      cases hdec : dec (lastValFrom "clear_password" "" e.keys) with
      | none => rw [hdec] at h; cases h
      | some td =>
        rw [hdec] at h
        have htok : tokenOfEntry dec e =
            some (newToken td.refreshToken td.accessToken td.expires td.tokenType) := by
          unfold tokenOfEntry
          rw [hdec]
          rfl
        rw [htok]
        cases hrec : getTokensLoop dec strategy rest with
        | error m => rw [hrec] at h; cases h
        | ok toks =>
          rw [hrec] at h
          cases h
          rw [← ih toks hrec]
    · have hm' : e.keys.any (fun k => decide (k.name = "realm")
          && decide (k.value = strategy)) = false := by
        unfold hasMatchingRealm at hm
        exact Bool.not_eq_true _ ▸ Bool.eq_false_iff.mpr hm
      rw [hm'] at h
      simp only [if_false, Bool.false_eq_true] at h
      rw [if_neg hm]
      exact ih ts h

theorem getTokensLoop_no_match (dec : String → Option TokenData)
    (strategy : String) (hs : strategy ≠ "") :
    ∀ (es : List Entry), (∀ e ∈ es, hasMatchingRealm strategy e = false) →
    getTokensLoop dec strategy es = .ok [] := by
  intro es
  induction es with
  | nil => intro _; rfl
  | cons e rest ih =>
    intro hnone
    rw [getTokensLoop, entryScan_ok strategy hs e.keys "" false]
    have he : e.keys.any (fun k => decide (k.name = "realm")
        && decide (k.value = strategy)) = false :=
      hnone e (List.mem_cons_self e rest)
    rw [he]
    simp only [Bool.false_or, if_false, Bool.false_eq_true]
    exact ih (fun x hx => hnone x (List.mem_cons_of_mem e hx))

/-! ## getAppCredentials -/

/-- Character-list prefix test. -/
def hasPref : List Char → List Char → Bool
  | [], _ => true
  | _ :: _, [] => false
  | a :: as, b :: bs => decide (a = b) && hasPref as bs

/-- Go `strings.Contains` on character lists. -/
def containsSeq (needle : List Char) : List Char → Bool
  | [] => needle.isEmpty
  | c :: rest => hasPref needle (c :: rest) || containsSeq needle rest

/-- Does the entry ID contain the Google application-domain marker
`apps.googleusercontent.com`? -/
def matchesAppDomain (e : Entry) : Bool :=
  containsSeq "apps.googleusercontent.com".toList e.id.toList

/-- Key scan of one matching entry in `getAppCredentials`:
`clear_password` overwrites the client secret, `username` overwrites the
client id. -/
def appKeysFold (ks : List EntryKey) (acc : String × String) : String × String :=
  ks.foldl
    (fun a k =>
      if k.name = "clear_password" then (a.1, k.value)
      else if k.name = "username" then (k.value, a.2)
      else a)
    acc

/-- Entry loop of `getAppCredentials`: entries whose ID contains the
application-domain marker contribute their fields; later matches
overwrite earlier ones. -/
def appCredsLoop : List Entry → String × String → String × String
  | [], acc => acc
  | e :: rest, acc =>
    appCredsLoop rest (if matchesAppDomain e then appKeysFold e.keys acc else acc)

/-- `getAppCredentials`: query the secure store (fatal on query failure)
and fold the matching entries into a (client id, client secret) pair,
starting from empty strings. -/
def getAppCredentialsRun (env : Env) :
    List Event × Except String (String × String) :=
  match env.entities with
  | none => ([.getEntities],
             .error "Unable to retrieve password entries for TA-GoogleFitness")
  | some es => ([.getEntities], .ok (appCredsLoop es ("", "")))

theorem appCredsLoop_skip (pre rest : List Entry) (acc : String × String)
    (h : ∀ x ∈ pre, matchesAppDomain x = false) :
    appCredsLoop (pre ++ rest) acc = appCredsLoop rest acc := by
  induction pre generalizing acc with
  | nil => rfl
  | cons e tail ih =>
    rw [List.cons_append, appCredsLoop]
    rw [h e (List.mem_cons_self e tail)]
    simp only [Bool.false_eq_true, if_false]
    exact ih acc (fun x hx => h x (List.mem_cons_of_mem e hx))

theorem appKeysFold_eq (ks : List EntryKey) (acc : String × String) :
    appKeysFold ks acc =
      (lastValFrom "username" acc.1 ks, lastValFrom "clear_password" acc.2 ks) := by
  induction ks generalizing acc with
  | nil => rfl
  | cons k rest ih =>
    rw [appKeysFold, List.foldl_cons, ← appKeysFold]
    rw [ih]
    simp only [lastValFrom, List.foldl_cons]
    by_cases h1 : k.name = "clear_password"
    · have h2 : ¬ k.name = "username" := by simp [h1]
      simp [h1, h2]
    · by_cases h2 : k.name = "username"
      · have h1' : ¬ k.name = "clear_password" := h1
        simp [h1', h2]
      · simp [h1, h2]

/-! ## Strategy registry and orchestrator (StreamEvents) -/

/-- The concrete fetch strategies the code can construct.  Only
GoogleFitness has a registered reader in `getReaderStrategy`. -/
inductive FitnessReader where
  | googleFitnessReader (startTime endTime : GoTime)
deriving DecidableEq

/-- Modelled from the spec: `GoogleFitnessReader.getData` itself is not
under src/.  Per the spec a strategy fetches data for its bound window
using the authenticated client and returns the timestamp to checkpoint
going forward, typically the window's end. -/
def FitnessReader.getData : FitnessReader → GoTime
  | .googleFitnessReader _ e => e

/-- `getReaderStrategy`: calls `getStrategy` (fatal when the provider
parameter is absent) and dispatches on the provider name; only
GoogleFitness has a reader, every other name is an unsupported-reader
error. -/
def getReaderStrategy (strategy : String) (startTime endTime : GoTime) :
    Except String FitnessReader :=
  if strategy = "" then .error "No strategy passed to Fitness Input"
  else if strategy = STRATEGY_GOOGLE then
    .ok (.googleFitnessReader startTime endTime)
  else .error ("Unsupported reader requested: " ++ strategy)

/-- The per-token loop body of `StreamEvents`, iterated over the resolved
tokens: resolve app credentials, build the client, compute the fetch
window, resolve the reader strategy, fetch, and write the checkpoint;
`log.Fatal` anywhere terminates the run (the error results).  The
checkpoint file contents are threaded so a later iteration reads what an
earlier one wrote. -/
def streamLoop (env : Env) (strategy : String) (cpPath : Option String) :
    Option (List Nat) → List Token → List Event × Except String Unit
  | _, [] => ([], .ok ())
  | file, tok :: rest =>
    match getAppCredentialsRun env with
    | (evs1, .error m) => (evs1, .error m)
    | (evs1, .ok _) =>
      match getTimesRun cpPath file env.now with
      | (evs2, .error m) => (evs1 ++ Event.buildClient tok :: evs2, .error m)
      | (evs2, .ok (st, en)) =>
        match getReaderStrategy strategy st en with
        | .error m => (evs1 ++ Event.buildClient tok :: evs2, .error m)
        | .ok rdr =>
          match writeCheckPointRun env.writeFails rdr.getData with
          | (evs3, .error m) =>
            (evs1 ++ Event.buildClient tok :: evs2 ++ Event.getData tok :: evs3,
             .error m)
          | (evs3, .ok bytes) =>
            match streamLoop env strategy cpPath (some bytes) rest with
            | (evs4, res) =>
              (evs1 ++ Event.buildClient tok :: evs2
                 ++ Event.getData tok :: evs3 ++ evs4, res)

/-- `StreamEvents`: read the configuration (an unreadable configuration
is only logged, after which the first field access of the nil config
panics inside `getTokens`), resolve the provider tokens, and run the
per-token loop. -/
def streamEvents (env : Env) : Option ModInputConfig →
    List Event × Except String Unit
  | none => ([.logWarn "Unable to read Modular Input config from reader."],
             .error "panic: invalid memory address or nil pointer dereference")
  | some cfg =>
    match getTokensRun env (getStrategyVal cfg.stanzas) with
    | (evs1, .error m) => (evs1, .error m)
    | (evs1, .ok toks) =>
      match streamLoop env (getStrategyVal cfg.stanzas)
          (getCheckPointPath cfg.stanzas cfg.checkpointDir)
          env.checkpointFile toks with
      | (evs2, res) => (evs1 ++ evs2, res)

/-- Modelled from the spec: the host-side dispatch (the main function of
the modular input, not under src/) runs external validation before
streaming; per the spec an unrecognized provider name causes a
configuration error that aborts the run before any network call, so a
failed `ValidateScheme` stops the run before `StreamEvents` starts. -/
def fullRun (env : Env) (configResult : Option ModInputConfig) :
    List Event × Except String Unit :=
  if (ValidateScheme configResult).1 then streamEvents env configResult
  else ([], .error ("ConfigurationError: " ++ (ValidateScheme configResult).2))

theorem getTimesRun_some_shape (p : String) (file : Option (List Nat))
    (now : GoTime) :
    ∃ evs st, getTimesRun (some p) file now = (evs, .ok (st, now)) ∧
      evs.countP isGetData = 0 ∧ evs.countP isBuildClient = 0 ∧
      evs.countP isWriteCp = 0 := by
  cases file with
  | none =>
    exact ⟨[.readCheckpointFile, .logWarn "Unable to read checkpoint file"],
           now, rfl, rfl, rfl, rfl⟩
  | some b =>
    cases hd : gobDecodeTime b with
    | none =>
      refine ⟨[.readCheckpointFile, .logWarn "Unable to decode checkpoint file"],
              now, ?_, rfl, rfl, rfl⟩
      simp only [getTimesRun, readCheckPointRun, hd, if_true]
    | some t =>
      refine ⟨[.readCheckpointFile], t, ?_, rfl, rfl, rfl⟩
      simp only [getTimesRun, readCheckPointRun, hd]
      rfl

/-! ## Claim theorems -/

/-- C1: the spec says that when the checkpoint file exists but cannot be
decoded, the fetch window handed to the strategy starts two hours before
now.  The code contradicts itself here: `readCheckPoint` deliberately
returns now minus two hours together with the decode error, but
`getTimes` overwrites the returned start with `time.Now()` whenever the
error is non-nil, so the fallback is discarded and the window starts at
now.  Evaluated at the failing input: a one-byte corrupt checkpoint file
`[0]` with now = 10000s: `readCheckPoint` yields 2800s (two hours back)
with an error, yet `getTimes` produces the window (10000s, 10000s). -/
theorem getTimes_discards_corrupt_fallback :
    readCheckPointRun (some "cp") (some [0]) { sec := 10000, nsec := 0 } =
      ([Event.readCheckpointFile, Event.logWarn "Unable to decode checkpoint file"],
       Except.ok ({ sec := 2800, nsec := 0 }, true))
    ∧ (getTimesRun (some "cp") (some [0]) { sec := 10000, nsec := 0 }).2 =
      Except.ok ({ sec := 10000, nsec := 0 }, { sec := 10000, nsec := 0 }) :=
  ⟨rfl, rfl⟩

/-- C5: writing a checkpoint for any valid timestamp T and reading it
back yields exactly T: `writeCheckPoint` stores the gob encoding of T and
`readCheckPoint` decodes those bytes back to T with no error. -/
theorem checkpoint_round_trip (t now : GoTime) (p : String) (h : t.valid) :
    ∃ b, (writeCheckPointRun false t).2 = Except.ok b ∧
      readCheckPointRun (some p) (some b) now =
        ([Event.readCheckpointFile], Except.ok (t, false)) := by
  refine ⟨gobEncodeTime t, rfl, ?_⟩
  simp only [readCheckPointRun, gobDecode_gobEncode t h]

/-- Witness for C5 at an epoch boundary (the zero time) and at the
largest int64 second count (far future). -/
theorem checkpoint_round_trip_witness :
    (∃ b, (writeCheckPointRun false { sec := 0, nsec := 0 }).2 = Except.ok b ∧
      readCheckPointRun (some "cp") (some b) { sec := 77, nsec := 5 } =
        ([Event.readCheckpointFile], Except.ok ({ sec := 0, nsec := 0 }, false)))
    ∧ (∃ b, (writeCheckPointRun false
        { sec := 9223372036854775807, nsec := 999999999 }).2 = Except.ok b ∧
      readCheckPointRun (some "cp") (some b) { sec := 77, nsec := 5 } =
        ([Event.readCheckpointFile],
         Except.ok ({ sec := 9223372036854775807, nsec := 999999999 }, false))) :=
  ⟨checkpoint_round_trip { sec := 0, nsec := 0 } { sec := 77, nsec := 5 } "cp"
     (by decide),
   checkpoint_round_trip { sec := 9223372036854775807, nsec := 999999999 }
     { sec := 77, nsec := 5 } "cp" (by decide)⟩

/-- C6 counterexample: the claim asserts start ≤ end for every checkpoint
file state, including one holding a timestamp later than now.  With a
stored checkpoint of 7200s and now = 0s, `getTimes` returns the window
(7200s, 0s), whose start is strictly after its end. -/
theorem fetch_window_future_checkpoint_cex :
    (getTimesRun (some "cp") (some (gobEncodeTime { sec := 7200, nsec := 0 }))
        { sec := 0, nsec := 0 }).2 =
      Except.ok ({ sec := 7200, nsec := 0 }, { sec := 0, nsec := 0 })
    ∧ ¬ GoTime.le { sec := 7200, nsec := 0 } { sec := 0, nsec := 0 } :=
  ⟨rfl, by decide⟩

/-- C6 amended: the fetch window satisfies start ≤ end for an absent or
corrupt checkpoint file (both give start = end = now) and for any stored
timestamp that is not later than now; a stored timestamp later than now
is returned unclamped, so only that case violates start ≤ end. -/
theorem fetch_window_start_le_end (p : String) (file : Option (List Nat))
    (now : GoTime)
    (h : ∀ b t, file = some b → gobDecodeTime b = some t → GoTime.le t now) :
    ∀ st en, (getTimesRun (some p) file now).2 = Except.ok (st, en) →
      GoTime.le st en := by
  intro st en heq
  cases file with
  | none =>
    simp only [getTimesRun, readCheckPointRun, if_true, Except.ok.injEq,
      Prod.mk.injEq] at heq
    rw [← heq.1, ← heq.2]
    exact GoTime.le_refl now
  | some b =>
    cases hd : gobDecodeTime b with
    | none =>
      simp only [getTimesRun, readCheckPointRun, hd, if_true, Except.ok.injEq,
        Prod.mk.injEq] at heq
      rw [← heq.1, ← heq.2]
      exact GoTime.le_refl now
    | some t =>
      simp only [getTimesRun, readCheckPointRun, hd, Except.ok.injEq,
        Prod.mk.injEq] at heq
      have hst : st = t := by
        have := heq.1
        simp only [Bool.false_eq_true, if_false] at this
        exact this.symm
      rw [hst, ← heq.2]
      exact h b t rfl hd

/-- Witness for C6 amended: absent checkpoint file, so start = end = now. -/
theorem fetch_window_start_le_end_witness :
    GoTime.le { sec := 5, nsec := 3 } { sec := 5, nsec := 3 } :=
  fetch_window_start_le_end "cp" none { sec := 5, nsec := 3 }
    (fun _ _ hb => nomatch hb) { sec := 5, nsec := 3 } { sec := 5, nsec := 3 } rfl

/-- C10: `getCheckPointPath` is well-defined exactly when there is a
first stanza whose name contains the scheme separator; it then joins the
checkpoint directory with the segment of the name immediately after the
first separator (`firstSeg` of the remainder); an empty stanza list or a
name without the separator reaches the out-of-bounds (none) branch. -/
theorem getCheckPointPath_spec (stanzas : List Stanza) (dir : String)
    (st : Stanza) (rest : List Stanza) (pre post : List Char) :
    (stanzas = [] → getCheckPointPath stanzas dir = none)
    ∧ (stanzas = st :: rest → findSep st.stanzaName.toList = none →
        getCheckPointPath stanzas dir = none)
    ∧ (stanzas = st :: rest → findSep st.stanzaName.toList = some (pre, post) →
        getCheckPointPath stanzas dir =
          some (pathJoin dir (String.mk (firstSeg post)))) := by
  refine ⟨?_, ?_, ?_⟩
  · intro h; rw [h]; rfl
  · intro h hf; rw [h]; exact getCheckPointPath_none_of_no_sep st rest dir hf
  · intro h hf; rw [h]; exact getCheckPointPath_of_sep st rest dir pre post hf

/-- Witness for C10: the three branches at concrete inputs — an empty
stanza list, a stanza name without the separator, and the stanza name
fitness://myinput under checkpoint directory /cp. -/
theorem getCheckPointPath_spec_witness :
    getCheckPointPath [] "/cp" = none
    ∧ getCheckPointPath [{ stanzaName := "noscheme", params := [] }] "/cp" = none
    ∧ getCheckPointPath [{ stanzaName := "fitness://myinput", params := [] }] "/cp"
        = some "/cp/myinput" :=
  ⟨(getCheckPointPath_spec [] "/cp" { stanzaName := "", params := [] } [] [] []).1
     rfl,
   (getCheckPointPath_spec [{ stanzaName := "noscheme", params := [] }] "/cp"
     { stanzaName := "noscheme", params := [] } [] [] []).2.1 rfl (by decide),
   (getCheckPointPath_spec [{ stanzaName := "fitness://myinput", params := [] }]
     "/cp" { stanzaName := "fitness://myinput", params := [] } []
     "fitness".toList "myinput".toList).2.2 rfl (by decide)⟩

/-- C3: with any configuration carrying a provider-selection parameter
outside the known set, the validated run fails before any network call:
`ValidateScheme` (which performs no I/O) rejects the configuration, and
the full run stops with a configuration error and an empty effect trace —
in particular no credential-store query and no checkpoint read or write
occur.  The host dispatch that runs validation before streaming is
modelled from the spec (the main function is not under src/). -/
theorem unknown_provider_fails_before_network (env : Env) (cfg : ModInputConfig)
    (st : Stanza) (p : Param) (hst : st ∈ cfg.stanzas) (hp : p ∈ st.params)
    (hname : p.name = STRATEGY_PARAM_NAME)
    (hg : p.value ≠ STRATEGY_GOOGLE) (hf : p.value ≠ STRATEGY_FITBIT)
    (hm : p.value ≠ STRATEGY_MICROSOFT) :
    (ValidateScheme (some cfg)).1 = false
    ∧ fullRun env (some cfg) =
        ([], Except.error ("ConfigurationError: " ++ (ValidateScheme (some cfg)).2)) := by
  have hbad : checkParam p = true := by
    unfold checkParam
    simp [hname, hg, hf, hm]
  have hv : (ValidateScheme (some cfg)).1 = false :=
    validateStanzas_false cfg.stanzas st p hst hp hbad
  refine ⟨hv, ?_⟩
  unfold fullRun
  rw [hv]
  simp

/-- Configuration selecting the unknown provider name Unknown. -/
def cfgUnknown : ModInputConfig :=
  { stanzas := [{ stanzaName := "fitness://u",
                  params := [{ name := "FitnessService", value := "Unknown" }] }],
    checkpointDir := "/cp", sessionKey := "sk" }

/-- Environment fixture for the C3 witness. -/
def envC3 : Env :=
  { entities := none, checkpointFile := none, now := { sec := 0, nsec := 0 },
    decodeJSON := fun _ => none, writeFails := false }

/-- Witness for C3 at the Unknown-provider configuration. -/
theorem unknown_provider_fails_before_network_witness :
    (ValidateScheme (some cfgUnknown)).1 = false
    ∧ fullRun envC3 (some cfgUnknown) =
        ([], Except.error
          ("ConfigurationError: " ++ (ValidateScheme (some cfgUnknown)).2)) :=
  unknown_provider_fails_before_network envC3 cfgUnknown
    { stanzaName := "fitness://u",
      params := [{ name := "FitnessService", value := "Unknown" }] }
    { name := "FitnessService", value := "Unknown" }
    (by simp [cfgUnknown]) (by simp) rfl (by decide) (by decide) (by decide)

/-- C4: when `getTokens` succeeds, the resolved token sequence is exactly
the matching entries' tokens in order: each entry tagged with a realm
attribute equal to the configured strategy contributes its decoded
payload, and every entry without such a realm attribute is excluded. -/
theorem getTokens_filter_correct (dec : String → Option TokenData)
    (strategy : String) (es : List Entry) (ts : List Token)
    (hs : strategy ≠ "") (h : getTokensLoop dec strategy es = .ok ts) :
    ts = es.filterMap
      (fun e => if hasMatchingRealm strategy e then tokenOfEntry dec e else none) :=
  getTokensLoop_filterMap dec strategy hs es ts h

/-- Decoder fixture for the C4 witness. -/
def decC4 : String → Option TokenData :=
  fun s => if s = "PAY" then
    some { accessToken := "A", refreshToken := "R", tokenType := "B", expires := "E" }
  else none

/-- Entry fixture for the C4 witness: one entry tagged for GoogleFitness
and one tagged for another realm. -/
def esC4 : List Entry :=
  [{ id := "e1", keys := [{ name := "clear_password", value := "PAY" },
                          { name := "realm", value := "GoogleFitness" }] },
   { id := "e2", keys := [{ name := "clear_password", value := "X" },
                          { name := "realm", value := "Other" }] }]

/-- Witness for C4: the mixed-realm store resolves to exactly the
GoogleFitness-tagged entry's token. -/
theorem getTokens_filter_correct_witness :
    getTokensLoop decC4 "GoogleFitness" esC4 = Except.ok [newToken "R" "A" "E" "B"]
    ∧ [newToken "R" "A" "E" "B"] = esC4.filterMap
        (fun e => if hasMatchingRealm "GoogleFitness" e then tokenOfEntry decC4 e
                  else none) :=
  ⟨rfl,
   getTokens_filter_correct decC4 "GoogleFitness" esC4 [newToken "R" "A" "E" "B"]
     (by decide) rfl⟩

/-- C9: app credential resolution.  A failed store query is fatal; if no
entry ID contains the application-domain marker the result is the empty
pair with no failure; and for a matching entry (with no matching entries
after it) the last `username` value becomes the client id and the last
`clear_password` value becomes the client secret. -/
theorem getAppCredentials_resolution (env : Env) (es pre post : List Entry)
    (e : Entry) :
    (env.entities = none →
      getAppCredentialsRun env = ([Event.getEntities],
        Except.error "Unable to retrieve password entries for TA-GoogleFitness"))
    ∧ (env.entities = some es → (∀ x ∈ es, matchesAppDomain x = false) →
        getAppCredentialsRun env = ([Event.getEntities], Except.ok ("", "")))
    ∧ (env.entities = some (pre ++ e :: post) →
        (∀ x ∈ pre, matchesAppDomain x = false) → matchesAppDomain e = true →
        (∀ x ∈ post, matchesAppDomain x = false) →
        getAppCredentialsRun env = ([Event.getEntities],
          Except.ok (lastValFrom "username" "" e.keys,
                     lastValFrom "clear_password" "" e.keys))) := by
  refine ⟨?_, ?_, ?_⟩
  · intro h
    unfold getAppCredentialsRun
    rw [h]
  · intro h hnone
    unfold getAppCredentialsRun
    rw [h]
    show ([Event.getEntities], Except.ok (appCredsLoop es ("", ""))) =
      ([Event.getEntities], Except.ok ("", ""))
    have hskip := appCredsLoop_skip es [] ("", "") hnone
    rw [List.append_nil] at hskip
    rw [hskip]
    rfl
  · intro h hpre he hpost
    unfold getAppCredentialsRun
    rw [h]
    show ([Event.getEntities], Except.ok (appCredsLoop (pre ++ e :: post) ("", ""))) =
      ([Event.getEntities],
       Except.ok (lastValFrom "username" "" e.keys,
                  lastValFrom "clear_password" "" e.keys))
    rw [appCredsLoop_skip pre (e :: post) ("", "") hpre]
    simp only [appCredsLoop, he, if_true]
    have hrest := appCredsLoop_skip post [] (appKeysFold e.keys ("", "")) hpost
    rw [List.append_nil] at hrest
    rw [hrest]
    rw [show appCredsLoop [] (appKeysFold e.keys ("", "")) = appKeysFold e.keys ("", "")
        from rfl]
    rw [appKeysFold_eq]

/-- Environment fixtures for the C9 witness: failed store query, a store
with no matching entry, and a store whose single entry carries the
application-domain marker. -/
def envC9a : Env :=
  { entities := none, checkpointFile := none, now := { sec := 0, nsec := 0 },
    decodeJSON := fun _ => none, writeFails := false }

def envC9b : Env :=
  { envC9a with entities := some [{ id := "other", keys := [] }] }

def entryC9 : Entry :=
  { id := "cid.apps.googleusercontent.com:fitness",
    keys := [{ name := "username", value := "CID" },
             { name := "clear_password", value := "CS" }] }

def envC9c : Env := { envC9a with entities := some [entryC9] }

/-- Witness for C9: the three contract cases at concrete stores. -/
theorem getAppCredentials_resolution_witness :
    getAppCredentialsRun envC9a = ([Event.getEntities],
      Except.error "Unable to retrieve password entries for TA-GoogleFitness")
    ∧ getAppCredentialsRun envC9b = ([Event.getEntities], Except.ok ("", ""))
    ∧ getAppCredentialsRun envC9c = ([Event.getEntities], Except.ok ("CID", "CS")) :=
  ⟨(getAppCredentials_resolution envC9a [] [] [] entryC9).1 rfl,
   (getAppCredentials_resolution envC9b [{ id := "other", keys := [] }] [] []
      entryC9).2.1 rfl (by decide),
   (getAppCredentials_resolution envC9c [] [] [] entryC9).2.2 rfl
      (by intro x hx; cases hx) (by decide) (by intro x hx; cases hx)⟩

/-- C7: when the resolved token sequence for the configured provider is
empty (no stored entry is tagged with the provider's realm), the run is
not an error: the trace holds only the credential-store query — no
client is built, no fetch happens, no checkpoint is read or written —
and the run finishes cleanly. -/
theorem streamEvents_no_tokens_clean (env : Env) (cfg : ModInputConfig)
    (es : List Entry)
    (h1 : env.entities = some es)
    (h2 : getStrategyVal cfg.stanzas ≠ "")
    (h3 : ∀ e ∈ es, hasMatchingRealm (getStrategyVal cfg.stanzas) e = false) :
    streamEvents env (some cfg) = ([Event.getEntities], Except.ok ()) := by
  have htok : getTokensRun env (getStrategyVal cfg.stanzas) =
      ([Event.getEntities], .ok []) := by
    unfold getTokensRun
    rw [h1]
    show ([Event.getEntities],
          getTokensLoop env.decodeJSON (getStrategyVal cfg.stanzas) es) = _
    rw [getTokensLoop_no_match env.decodeJSON (getStrategyVal cfg.stanzas) h2 es h3]
  simp only [streamEvents]
  rw [htok]
  rfl

/-- Configuration fixture for the C7 witness: provider GoogleFitness. -/
def cfgC7 : ModInputConfig :=
  { stanzas := [{ stanzaName := "fitness://w",
                  params := [{ name := "FitnessService", value := "GoogleFitness" }] }],
    checkpointDir := "/cp", sessionKey := "sk" }

/-- Environment fixture for the C7 witness: the only stored entry is
tagged for FitBit, so no GoogleFitness credential resolves. -/
def envC7 : Env :=
  { entities := some [{ id := "e", keys := [{ name := "clear_password", value := "P" },
                                            { name := "realm", value := "FitBit" }] }],
    checkpointFile := none, now := { sec := 0, nsec := 0 },
    decodeJSON := fun _ => none, writeFails := false }

/-- Witness for C7: a FitBit-tagged store under a GoogleFitness
configuration yields a clean no-work run. -/
theorem streamEvents_no_tokens_clean_witness :
    streamEvents envC7 (some cfgC7) = ([Event.getEntities], Except.ok ()) :=
  streamEvents_no_tokens_clean envC7 cfgC7
    [{ id := "e", keys := [{ name := "clear_password", value := "P" },
                           { name := "realm", value := "FitBit" }] }]
    rfl (by decide) (by decide)

/-- Configuration fixture selecting GoogleFitness (used for C8). -/
def cfgG : ModInputConfig :=
  { stanzas := [{ stanzaName := "fitness://g",
                  params := [{ name := "FitnessService", value := "GoogleFitness" }] }],
    checkpointDir := "/cp", sessionKey := "sk" }

/-- C8: whenever writing the checkpoint file fails, the run stops
fatally at that write: the result is the write error, and the trace
holds exactly one client build, one fetch and one checkpoint-write
attempt — no further credential of the sequence is processed and nothing
follows the failed write.  (For the UTC wall-clock values modelled here
the gob-encode step itself cannot fail, so the write failure is the
file-system one.) -/
theorem write_failure_stops_run (env : Env) (es : List Entry) (tok1 : Token)
    (toks : List Token)
    (h1 : env.entities = some es)
    (h2 : getTokensLoop env.decodeJSON "GoogleFitness" es = .ok (tok1 :: toks))
    (h3 : env.writeFails = true) :
    (streamEvents env (some cfgG)).2 = Except.error "Error writing checkpoint file"
    ∧ (streamEvents env (some cfgG)).1.countP isGetData = 1
    ∧ (streamEvents env (some cfgG)).1.countP isBuildClient = 1
    ∧ (streamEvents env (some cfgG)).1.countP isWriteCp = 1 := by
  obtain ⟨evs2, st, hgt, hcd, hcb, hcw⟩ :=
    getTimesRun_some_shape "/cp/g" env.checkpointFile env.now
  have happ : getAppCredentialsRun env =
      ([Event.getEntities], .ok (appCredsLoop es ("", ""))) := by
    unfold getAppCredentialsRun
    rw [h1]
  have hloop : streamLoop env "GoogleFitness" (some "/cp/g") env.checkpointFile
      (tok1 :: toks) =
      ([Event.getEntities] ++ Event.buildClient tok1 :: evs2
        ++ Event.getData tok1 :: [Event.writeCheckpointFile (gobEncodeTime env.now)],
       .error "Error writing checkpoint file") := by
    simp only [streamLoop]
    rw [happ, hgt, h3]
    rfl
  have htr : getTokensRun env "GoogleFitness" =
      ([Event.getEntities], .ok (tok1 :: toks)) := by
    unfold getTokensRun
    rw [h1]
    show ([Event.getEntities], getTokensLoop env.decodeJSON "GoogleFitness" es) = _
    rw [h2]
  have hpath : getCheckPointPath cfgG.stanzas cfgG.checkpointDir = some "/cp/g" := by
    have hof := getCheckPointPath_of_sep
      { stanzaName := "fitness://g",
        params := [{ name := "FitnessService", value := "GoogleFitness" }] }
      [] "/cp" "fitness".toList "g".toList (by decide)
    exact hof
  have hse : streamEvents env (some cfgG) =
      ([Event.getEntities] ++ ([Event.getEntities] ++ Event.buildClient tok1 :: evs2
        ++ Event.getData tok1 :: [Event.writeCheckpointFile (gobEncodeTime env.now)]),
       .error "Error writing checkpoint file") := by
    simp only [streamEvents]
    rw [show getStrategyVal cfgG.stanzas = "GoogleFitness" from rfl]
    rw [htr, hpath]
    show ([Event.getEntities] ++ (streamLoop env "GoogleFitness" (some "/cp/g")
            env.checkpointFile (tok1 :: toks)).1,
          (streamLoop env "GoogleFitness" (some "/cp/g")
            env.checkpointFile (tok1 :: toks)).2) = _
    rw [hloop]
  rw [hse]
  refine ⟨rfl, ?_, ?_, ?_⟩
  · simp only [List.countP_append, List.countP_cons, List.countP_nil, hcd]
    simp [isGetData]
  · simp only [List.countP_append, List.countP_cons, List.countP_nil, hcb]
    simp [isBuildClient]
  · simp only [List.countP_append, List.countP_cons, List.countP_nil, hcw]
    simp [isWriteCp]

/-- Token payload fixture for the C8 witness. -/
def tdG : TokenData :=
  { accessToken := "AT", refreshToken := "RT", tokenType := "Bearer", expires := "EX" }

/-- Store entry fixture for the C8 witness: one GoogleFitness-tagged
credential. -/
def entryG8 : Entry :=
  { id := "u1", keys := [{ name := "clear_password", value := "PG" },
                         { name := "realm", value := "GoogleFitness" }] }

/-- Environment fixture for the C8 witness: one GoogleFitness credential
and a failing checkpoint write. -/
def envC8 : Env :=
  { entities := some [entryG8],
    checkpointFile := none, now := { sec := 50, nsec := 0 },
    decodeJSON := fun s => if s = "PG" then some tdG else none,
    writeFails := true }

/-- Witness for C8: the failing write aborts the run after exactly one
build, one fetch and one write attempt. -/
theorem write_failure_stops_run_witness :
    (streamEvents envC8 (some cfgG)).2 = Except.error "Error writing checkpoint file"
    ∧ (streamEvents envC8 (some cfgG)).1.countP isGetData = 1
    ∧ (streamEvents envC8 (some cfgG)).1.countP isBuildClient = 1
    ∧ (streamEvents envC8 (some cfgG)).1.countP isWriteCp = 1 :=
  write_failure_stops_run envC8 [entryG8]
    (newToken "RT" "AT" "EX" "Bearer") [] rfl rfl rfl

/-! ## C2: the FitBit two-credential scenario -/

/-- A secure-store entry tagged realm=FitBit holding payload `pv`. -/
def entryFB (idv pv : String) : Entry :=
  { id := idv, keys := [{ name := "clear_password", value := pv },
                        { name := "realm", value := "FitBit" }] }

/-- Configuration fixture selecting FitBit. -/
def cfgFB : ModInputConfig :=
  { stanzas := [{ stanzaName := "fitness://fb",
                  params := [{ name := "FitnessService", value := "FitBit" }] }],
    checkpointDir := "/cp", sessionKey := "sk" }

theorem getTokensLoop_cons_matching (dec : String → Option TokenData) (s : String)
    (hs : s ≠ "") (e : Entry) (rest : List Entry) (td : TokenData)
    (hm : hasMatchingRealm s e = true)
    (hd : dec (lastValFrom "clear_password" "" e.keys) = some td) :
    getTokensLoop dec s (e :: rest) =
      match getTokensLoop dec s rest with
      | .error m => .error m
      | .ok toks =>
        .ok (newToken td.refreshToken td.accessToken td.expires td.tokenType
              :: toks) := by
  simp only [getTokensLoop]
  rw [entryScan_ok s hs e.keys "" false]
  simp only [Bool.false_or]
  rw [show (e.keys.any fun k => decide (k.name = "realm") && decide (k.value = s))
        = true from hm]
  simp only [if_true]
  rw [hd]

/-- Fixture token payloads for the C2 counterexample and witness. -/
def tdA : TokenData :=
  { accessToken := "A1", refreshToken := "R1", tokenType := "T1", expires := "E1" }

def tdB : TokenData :=
  { accessToken := "A2", refreshToken := "R2", tokenType := "T2", expires := "E2" }

/-- Environment fixture for C2: two FitBit-tagged entries with distinct
valid payloads. -/
def envC2 : Env :=
  { entities := some [entryFB "i1" "q1", entryFB "i2" "q2"],
    checkpointFile := none, now := { sec := 9, nsec := 0 },
    decodeJSON := fun s => if s = "q1" then some tdA else
      if s = "q2" then some tdB else none,
    writeFails := false }

/-- C2 counterexample: contrary to the claim, `getReaderStrategy` does
not succeed for the provider name FitBit — only GoogleFitness has a
registered reader — and in the two-FitBit-credential scenario the run
performs zero `getData` invocations (not two), dying instead with the
unsupported-reader error on the first credential. -/
theorem fitbit_strategy_unsupported_cex :
    getReaderStrategy STRATEGY_FITBIT { sec := 0, nsec := 0 } { sec := 0, nsec := 0 }
      = Except.error "Unsupported reader requested: FitBit"
    ∧ (streamEvents envC2 (some cfgFB)).1.countP isGetData = 0
    ∧ (streamEvents envC2 (some cfgFB)).2 =
        Except.error "Unsupported reader requested: FitBit" :=
  ⟨rfl, rfl, rfl⟩

/-- C2 amended: with provider FitBit configured and exactly two stored
entries tagged realm=FitBit with valid payloads, `getTokens` does
resolve exactly those two credentials in order, but `getReaderStrategy`
fails for FitBit, so StreamEvents dies with the unsupported-reader error
while processing the first credential: one client is built, and no
`getData` invocation and no checkpoint write ever happen. -/
theorem streamEvents_fitbit_aborts (env : Env) (id1 id2 p1 p2 : String)
    (td1 td2 : TokenData)
    (h1 : env.entities = some [entryFB id1 p1, entryFB id2 p2])
    (hd1 : env.decodeJSON p1 = some td1) (hd2 : env.decodeJSON p2 = some td2) :
    (getTokensRun env "FitBit").2 =
      Except.ok [newToken td1.refreshToken td1.accessToken td1.expires td1.tokenType,
                 newToken td2.refreshToken td2.accessToken td2.expires td2.tokenType]
    ∧ (streamEvents env (some cfgFB)).2 =
        Except.error "Unsupported reader requested: FitBit"
    ∧ (streamEvents env (some cfgFB)).1.countP isGetData = 0
    ∧ (streamEvents env (some cfgFB)).1.countP isWriteCp = 0
    ∧ (streamEvents env (some cfgFB)).1.countP isBuildClient = 1 := by
  have htl : getTokensLoop env.decodeJSON "FitBit" [entryFB id1 p1, entryFB id2 p2]
      = .ok [newToken td1.refreshToken td1.accessToken td1.expires td1.tokenType,
             newToken td2.refreshToken td2.accessToken td2.expires td2.tokenType] := by
    rw [getTokensLoop_cons_matching env.decodeJSON "FitBit" (by decide)
          (entryFB id1 p1) _ td1 rfl hd1]
    rw [getTokensLoop_cons_matching env.decodeJSON "FitBit" (by decide)
          (entryFB id2 p2) _ td2 rfl hd2]
    rfl
  have htr : getTokensRun env "FitBit" = ([Event.getEntities],
      .ok [newToken td1.refreshToken td1.accessToken td1.expires td1.tokenType,
           newToken td2.refreshToken td2.accessToken td2.expires td2.tokenType]) := by
    unfold getTokensRun
    rw [h1]
    show ([Event.getEntities], getTokensLoop env.decodeJSON "FitBit"
           [entryFB id1 p1, entryFB id2 p2]) = _
    rw [htl]
  obtain ⟨evs2, st, hgt, hcd, hcb, hcw⟩ :=
    getTimesRun_some_shape "/cp/fb" env.checkpointFile env.now
  have happ : getAppCredentialsRun env = ([Event.getEntities],
      .ok (appCredsLoop [entryFB id1 p1, entryFB id2 p2] ("", ""))) := by
    unfold getAppCredentialsRun
    rw [h1]
  have hloop : streamLoop env "FitBit" (some "/cp/fb") env.checkpointFile
      [newToken td1.refreshToken td1.accessToken td1.expires td1.tokenType,
       newToken td2.refreshToken td2.accessToken td2.expires td2.tokenType] =
      ([Event.getEntities] ++ Event.buildClient
         (newToken td1.refreshToken td1.accessToken td1.expires td1.tokenType)
         :: evs2,
       .error "Unsupported reader requested: FitBit") := by
    simp only [streamLoop]
    rw [happ, hgt]
    rfl
  have hpath : getCheckPointPath cfgFB.stanzas cfgFB.checkpointDir
      = some "/cp/fb" := by
    have hof := getCheckPointPath_of_sep
      { stanzaName := "fitness://fb",
        params := [{ name := "FitnessService", value := "FitBit" }] }
      [] "/cp" "fitness".toList "fb".toList (by decide)
    exact hof
  have hse : streamEvents env (some cfgFB) =
      ([Event.getEntities] ++ ([Event.getEntities] ++ Event.buildClient
         (newToken td1.refreshToken td1.accessToken td1.expires td1.tokenType)
         :: evs2),
       .error "Unsupported reader requested: FitBit") := by
    simp only [streamEvents]
    rw [show getStrategyVal cfgFB.stanzas = "FitBit" from rfl]
    rw [htr, hpath]
    show ([Event.getEntities] ++ (streamLoop env "FitBit" (some "/cp/fb")
            env.checkpointFile
            [newToken td1.refreshToken td1.accessToken td1.expires td1.tokenType,
             newToken td2.refreshToken td2.accessToken td2.expires td2.tokenType]).1,
          (streamLoop env "FitBit" (some "/cp/fb") env.checkpointFile
            [newToken td1.refreshToken td1.accessToken td1.expires td1.tokenType,
             newToken td2.refreshToken td2.accessToken td2.expires td2.tokenType]).2)
          = _
    rw [hloop]
  refine ⟨by rw [htr], by rw [hse], ?_, ?_, ?_⟩
  · rw [hse]
    simp only [List.countP_append, List.countP_cons, List.countP_nil, hcd]
    simp [isGetData]
  · rw [hse]
    simp only [List.countP_append, List.countP_cons, List.countP_nil, hcw]
    simp [isWriteCp]
  · rw [hse]
    simp only [List.countP_append, List.countP_cons, List.countP_nil, hcb]
    simp [isBuildClient]

/-- Witness for C2 amended: the concrete two-FitBit-credential store. -/
theorem streamEvents_fitbit_aborts_witness :
    (getTokensRun envC2 "FitBit").2 =
      Except.ok [newToken "R1" "A1" "E1" "T1", newToken "R2" "A2" "E2" "T2"]
    ∧ (streamEvents envC2 (some cfgFB)).2 =
        Except.error "Unsupported reader requested: FitBit"
    ∧ (streamEvents envC2 (some cfgFB)).1.countP isGetData = 0
    ∧ (streamEvents envC2 (some cfgFB)).1.countP isWriteCp = 0
    ∧ (streamEvents envC2 (some cfgFB)).1.countP isBuildClient = 1 :=
  streamEvents_fitbit_aborts envC2 "i1" "i2" "q1" "q2" tdA tdB rfl rfl rfl
